import Mathlib

/-!
Verification of the real-time room/session state engine and dashboard
aggregation of the deep-attend backend: the in-memory room registry
(`rooms`), the attention ledger (`room_attention_data`), the socket event
handlers `join_room`, `attention_update` and `disconnect` from
`backend/realtime/socket_handlers.py`, and the two dashboard aggregation
call sites (`_broadcast_dashboard_update` there, and the stats portion of
`get_session_dashboard` in `backend/api/dashboard_routes.py`).

Python dicts are modelled as insertion-ordered association lists with
string keys (`dlookup`, `dinsert`, `derase`, `dsetdefault`); emitted
socket events are collected into a trace list.  Numbers that Python holds
as floats are modelled as rationals, with Python's `round(x, 1)`
(round-half-to-even) modelled by `round1`.  Database access in the
handlers (the `SessionParticipant` persistence block of `join_room` and
the `ClassSession` lookup of the REST route) touches no in-memory state
and is external to the model.
-/

/-- Python `d.get(k)` on an insertion-ordered dict modelled as an
association list: the value at the first matching key, if any. -/
def dlookup {α : Type} (k : String) : List (String × α) → Option α
  | [] => none
  | (k', v) :: rest => if k' = k then some v else dlookup k rest

/-- Python `d[k] = v`: replaces the value in place when the key is
present, otherwise appends the new binding at the end. -/
def dinsert {α : Type} (k : String) (v : α) : List (String × α) → List (String × α)
  | [] => [(k, v)]
  | (k', v') :: rest => if k' = k then (k', v) :: rest else (k', v') :: dinsert k v rest

/-- Python `del d[k]` / `d.pop(k, None)`: removes the binding for the key
when present, otherwise leaves the dict unchanged. -/
def derase {α : Type} (k : String) : List (String × α) → List (String × α)
  | [] => []
  | (k', v') :: rest => if k' = k then rest else (k', v') :: derase k rest

/-- Python `d.setdefault(k, v)`: inserts `(k, v)` only when `k` is absent. -/
def dsetdefault {α : Type} (k : String) (v : α) (l : List (String × α)) : List (String × α) :=
  if (dlookup k l).isSome then l else l ++ [(k, v)]

/-- One value of the inner `rooms[room]` dict:
`{"name": ..., "sid": ..., "user_db_id": ...}` as stored by `join_room`. -/
structure UserData where
  name : String
  sid : String
  user_db_id : Option Nat
deriving DecidableEq

/-- One value of the inner `room_attention_data[room]` dict, as stored by
`attention_update`.  `is_attentive` is tri-state (`data.get("is_attentive")`
may be absent/None); the timestamp string is abstracted to a number. -/
structure Reading where
  is_attentive : Option Bool
  confidence : ℚ
  prob_attentive : ℚ
  prob_inattentive : ℚ
  timestamp : Nat
deriving DecidableEq

/-- The module-level mutable state of `socket_handlers.py`:
`rooms : Dict[str, Dict[str, Dict]]` and
`room_attention_data : Dict[str, Dict[str, Dict]]`. -/
structure ServerState where
  rooms : List (String × List (String × UserData))
  room_attention_data : List (String × List (String × Reading))
deriving DecidableEq

/-- The participants registered under a room code (empty when the room is
absent from the registry). -/
def membersOf (st : ServerState) (room_code : String) : List (String × UserData) :=
  (dlookup room_code st.rooms).getD []

/-- One element of the `participants_info` list built by
`_broadcast_dashboard_update`. -/
structure ParticipantInfo where
  id : String
  name : String
  is_attentive : Option Bool
  confidence : ℚ
  prob_attentive : ℚ
  prob_inattentive : ℚ
deriving DecidableEq

/-- One element of the `participants_info` list built by
`get_session_dashboard` (the REST path also reports `last_update`). -/
structure RestParticipantInfo where
  id : String
  name : String
  is_attentive : Option Bool
  confidence : ℚ
  prob_attentive : ℚ
  prob_inattentive : ℚ
  last_update : Option Nat
deriving DecidableEq

/-- Python's `round(x, 1)`: round to one decimal digit, ties to even. -/
def roundHalfEven (x : ℚ) : ℤ :=
  let f : ℤ := ⌊x⌋
  let frac : ℚ := x - f
  if frac < 1 / 2 then f
  else if 1 / 2 < frac then f + 1
  else if f % 2 = 0 then f else f + 1

/-- `round(x, 1)` of Python applied to a rational. -/
def round1 (x : ℚ) : ℚ := (roundHalfEven (x * 10) : ℚ) / 10

/-- The `stats` object emitted by `_broadcast_dashboard_update`:
`inattentive` is computed as `total - attentive` there. -/
structure Stats where
  total : Nat
  attentive : Nat
  inattentive : ℤ
  attention_rate : ℚ
deriving DecidableEq

/-- The `stats` object returned by `get_session_dashboard`: `inattentive`
is the count of participants whose `is_attentive` is exactly `False`. -/
structure RestStats where
  total_participants : Nat
  attentive : Nat
  inattentive : Nat
  attention_rate : ℚ
deriving DecidableEq

/-- The `participants_info` list of `_broadcast_dashboard_update`: one
entry per registered room user, fields defaulted from the user's latest
attention reading (`{}` when absent). -/
def participantsInfo (st : ServerState) (room_code : String) : List ParticipantInfo :=
  let attention_data := (dlookup room_code st.room_attention_data).getD []
  let room_users := (dlookup room_code st.rooms).getD []
  room_users.map fun p =>
    let ua := dlookup p.1 attention_data
    { id := p.1
      name := p.2.name
      is_attentive := match ua with | none => none | some r => r.is_attentive
      confidence := match ua with | none => 0 | some r => r.confidence
      prob_attentive := match ua with | none => 0 | some r => r.prob_attentive
      prob_inattentive := match ua with | none => 0 | some r => r.prob_inattentive }

/-- The stats computed by `_broadcast_dashboard_update`:
`attentive = sum(1 for p in participants_info if p["is_attentive"] is True)`,
`inattentive = total - attentive`,
`attention_rate = round((attentive / total * 100) if total else 0, 1)`. -/
def broadcastDashboardStats (st : ServerState) (room_code : String) : Stats :=
  let participants_info := participantsInfo st room_code
  let total := participants_info.length
  let attentive := participants_info.countP fun p => decide (p.is_attentive = some true)
  { total := total
    attentive := attentive
    inattentive := (total : ℤ) - (attentive : ℤ)
    attention_rate := round1 (if total = 0 then 0 else (attentive : ℚ) / (total : ℚ) * 100) }

/-- The `participants_info` list of the REST route `get_session_dashboard`
(identical to the broadcast one except for the extra `last_update`). -/
def restParticipantsInfo (st : ServerState) (room_code : String) : List RestParticipantInfo :=
  let attention_data := (dlookup room_code st.room_attention_data).getD []
  let room_users := (dlookup room_code st.rooms).getD []
  room_users.map fun p =>
    let ua := dlookup p.1 attention_data
    { id := p.1
      name := p.2.name
      is_attentive := match ua with | none => none | some r => r.is_attentive
      confidence := match ua with | none => 0 | some r => r.confidence
      prob_attentive := match ua with | none => 0 | some r => r.prob_attentive
      prob_inattentive := match ua with | none => 0 | some r => r.prob_inattentive
      last_update := match ua with | none => none | some r => some r.timestamp }

/-- The stats portion of `get_session_dashboard` (`dashboard_routes.py`):
`attentive_count` counts `is_attentive is True`, `inattentive_count`
counts `is_attentive is False`; the surrounding durable-session lookup is
external to the in-memory model. -/
def getSessionDashboardStats (st : ServerState) (room_code : String) : RestStats :=
  let participants_info := restParticipantsInfo st room_code
  let total := participants_info.length
  let attentive_count := participants_info.countP fun p => decide (p.is_attentive = some true)
  let inattentive_count := participants_info.countP fun p => decide (p.is_attentive = some false)
  { total_participants := total
    attentive := attentive_count
    inattentive := inattentive_count
    attention_rate := round1 (if total = 0 then 0 else (attentive_count : ℚ) / (total : ℚ) * 100) }

/-- A socket event emitted by the handlers (via `sio.emit`). -/
inductive Emit where
  | existingUsers (toSid : String) (users : List (String × String))
  | userJoined (room skipSid id name : String)
  | userLeft (room skipSid id : String)
  | studentAttention (room skipSid odId name : String) (is_attentive : Option Bool)
      (prob_attentive prob_inattentive : ℚ)
  | dashboardUpdate (room : String) (stats : Stats) (participants : List ParticipantInfo)
deriving DecidableEq

/-- The `dashboard-update` emit produced by `_broadcast_dashboard_update`. -/
def broadcastDashboardUpdate (st : ServerState) (room_code : String) : Emit :=
  Emit.dashboardUpdate room_code (broadcastDashboardStats st room_code)
    (participantsInfo st room_code)

/-- Payload of a `join_room` event (`data.get` fields). -/
structure JoinData where
  room : Option String
  name : Option String
  user_id : Option Nat
deriving DecidableEq

/-- The `join_room` handler: `setdefault` both dicts, snapshot the
existing users, register the joiner (overwriting any previous entry for
the same connection id), then emit `existing-users` to the joiner,
`user-joined` to the room and a dashboard update. -/
def join_room (sid : String) (data : JoinData) (st : ServerState) : ServerState × List Emit :=
  let room := data.room.getD "default"
  let name := data.name.getD "Anonymous"
  let user_id := sid
  let rooms1 := dsetdefault room [] st.rooms
  let rad1 := dsetdefault room [] st.room_attention_data
  let existing_users := ((dlookup room rooms1).getD []).map fun p => (p.1, p.2.name)
  let rooms2 := dinsert room
    (dinsert user_id ⟨name, sid, data.user_id⟩ ((dlookup room rooms1).getD [])) rooms1
  let st' : ServerState := ⟨rooms2, rad1⟩
  (st', [Emit.existingUsers sid existing_users,
         Emit.userJoined room sid user_id name,
         broadcastDashboardUpdate st' room])

/-- Payload of an `attention_update` event (`data.get` fields). -/
structure AttnData where
  room : Option String
  name : Option String
  is_attentive : Option Bool
  confidence : Option ℚ
  prob_attentive : Option ℚ
  prob_inattentive : Option ℚ
deriving DecidableEq

/-- The reading dict stored by `attention_update` (fields defaulted as in
the source, timestamp from the clock). -/
def attnReading (data : AttnData) (now : Nat) : Reading :=
  { is_attentive := data.is_attentive
    confidence := data.confidence.getD 0
    prob_attentive := data.prob_attentive.getD 0
    prob_inattentive := data.prob_inattentive.getD 0
    timestamp := now }

/-- The `attention_update` handler: guarded by
`if room_code and room_code in room_attention_data` (missing or empty room
code, or an untracked room, is a silent no-op); otherwise it upserts the
sender's reading keyed by its sid and emits `student_attention` plus a
dashboard update. -/
def attention_update (sid : String) (data : AttnData) (now : Nat) (st : ServerState) :
    ServerState × List Emit :=
  let user_name := data.name.getD "Anônimo"
  match data.room with
  | none => (st, [])
  | some room_code =>
    if room_code = "" then (st, [])
    else
      match dlookup room_code st.room_attention_data with
      | none => (st, [])
      | some m =>
        let rad' := dinsert room_code (dinsert sid (attnReading data now) m)
          st.room_attention_data
        let st' : ServerState := ⟨st.rooms, rad'⟩
        (st', [Emit.studentAttention room_code sid sid user_name data.is_attentive
                 (data.prob_attentive.getD 0) (data.prob_inattentive.getD 0),
               broadcastDashboardUpdate st' room_code])

/-- The ledger deletion inside `disconnect`'s inner loop:
`if room_code in room_attention_data and user_id in
room_attention_data[room_code]: del room_attention_data[room_code][user_id]`. -/
def discRadStep (room uid : String) (rad : List (String × List (String × Reading))) :
    List (String × List (String × Reading)) :=
  match dlookup room rad with
  | some m => if (dlookup uid m).isSome then dinsert room (derase uid m) rad else rad
  | none => rad

/-- The state after one matching removal inside `disconnect`'s inner loop:
`del rooms[room_code][user_id]` followed by the guarded ledger deletion. -/
def discStep1 (room uid : String) (st : ServerState) : ServerState :=
  ⟨dinsert room (derase uid ((dlookup room st.rooms).getD [])) st.rooms,
   discRadStep room uid st.room_attention_data⟩

/-- Inner loop of `disconnect`: scan the key snapshot of one room,
deleting every entry whose `sid` matches the disconnecting connection,
deleting the matching ledger entry, and emitting `user-left` plus a
dashboard update after each removal. -/
def discUsers (sid room : String) : List (String × UserData) → ServerState → ServerState × List Emit
  | [], st => (st, [])
  | (uid, ud) :: rest, st =>
    if ud.sid = sid then
      ((discUsers sid room rest (discStep1 room uid st)).1,
        Emit.userLeft room sid uid ::
          broadcastDashboardUpdate (discStep1 room uid st) room ::
          (discUsers sid room rest (discStep1 room uid st)).2)
    else discUsers sid room rest st

/-- One outer-loop iteration of `disconnect`: process one room's users,
then `if not rooms[room_code]: del rooms[room_code];
room_attention_data.pop(room_code, None)`. -/
def discRoom (sid room : String) (st : ServerState) : ServerState × List Emit :=
  match dlookup room st.rooms with
  | none => (st, [])
  | some users =>
    let next := discUsers sid room users st
    if ((dlookup room next.1.rooms).getD []).isEmpty then
      (⟨derase room next.1.rooms, derase room next.1.room_attention_data⟩, next.2)
    else next

/-- Outer loop of `disconnect` over the snapshot `list(rooms.keys())`. -/
def discRooms (sid : String) : List String → ServerState → ServerState × List Emit
  | [], st => (st, [])
  | r :: rs, st =>
    let a := discRoom sid r st
    let b := discRooms sid rs a.1
    (b.1, a.2 ++ b.2)

/-- The `disconnect` handler. -/
def disconnect (sid : String) (st : ServerState) : ServerState × List Emit :=
  discRooms sid (st.rooms.map Prod.fst) st

/-- A registry-mutating socket event, for building reachable states. -/
inductive Ev where
  | join (sid : String) (data : JoinData)
  | attn (sid : String) (data : AttnData) (now : Nat)
  | disc (sid : String)
deriving DecidableEq

/-- Process one event, keeping only the resulting state. -/
def step (st : ServerState) : Ev → ServerState
  | .join sid data => (join_room sid data st).1
  | .attn sid data now => (attention_update sid data now st).1
  | .disc sid => (disconnect sid st).1

/-- The state reached from the initial empty registry and ledger after a
sequence of fully processed events. -/
def run (evs : List Ev) : ServerState := evs.foldl step ⟨[], []⟩


/-! ### Association-list (dict) lemmas -/

theorem dlookup_nil {α : Type} (k : String) : dlookup (α := α) k [] = none := rfl

theorem dlookup_cons {α : Type} (k a : String) (b : α) (rest : List (String × α)) :
    dlookup k ((a, b) :: rest) = if a = k then some b else dlookup k rest := rfl

theorem dinsert_cons {α : Type} (k a : String) (v b : α) (rest : List (String × α)) :
    dinsert k v ((a, b) :: rest) =
      if a = k then (a, v) :: rest else (a, b) :: dinsert k v rest := rfl

theorem derase_cons {α : Type} (k a : String) (b : α) (rest : List (String × α)) :
    derase k ((a, b) :: rest) = if a = k then rest else (a, b) :: derase k rest := rfl

theorem dlookup_dinsert_self {α : Type} (k : String) (v : α) (l : List (String × α)) :
    dlookup k (dinsert k v l) = some v := by
  induction l with
  | nil => simp [dinsert, dlookup]
  | cons p rest ih =>
    obtain ⟨a, b⟩ := p
    rw [dinsert_cons]
    by_cases ha : a = k
    · rw [if_pos ha, dlookup_cons, if_pos ha]
    · rw [if_neg ha, dlookup_cons, if_neg ha]
      exact ih

theorem dlookup_dinsert_ne {α : Type} {k' k : String} (h : k' ≠ k) (v : α)
    (l : List (String × α)) : dlookup k' (dinsert k v l) = dlookup k' l := by
  induction l with
  | nil =>
    rw [dlookup_nil]
    show dlookup k' [(k, v)] = none
    rw [dlookup_cons, if_neg (fun hk => h hk.symm), dlookup_nil]
  | cons p rest ih =>
    obtain ⟨a, b⟩ := p
    rw [dinsert_cons]
    by_cases ha : a = k
    · rw [if_pos ha, dlookup_cons, dlookup_cons]
      have : ¬ a = k' := fun hk => h (hk ▸ ha ▸ rfl : k' = k)
      rw [if_neg this, if_neg this]
    · rw [if_neg ha, dlookup_cons, dlookup_cons]
      by_cases hb : a = k'
      · rw [if_pos hb, if_pos hb]
      · rw [if_neg hb, if_neg hb]
        exact ih

theorem dlookup_derase_ne {α : Type} {k' k : String} (h : k' ≠ k)
    (l : List (String × α)) : dlookup k' (derase k l) = dlookup k' l := by
  induction l with
  | nil => rfl
  | cons p rest ih =>
    obtain ⟨a, b⟩ := p
    rw [derase_cons]
    by_cases ha : a = k
    · rw [if_pos ha, dlookup_cons]
      have : ¬ a = k' := fun hk => h (hk ▸ ha ▸ rfl : k' = k)
      rw [if_neg this]
    · rw [if_neg ha, dlookup_cons, dlookup_cons]
      by_cases hb : a = k'
      · rw [if_pos hb, if_pos hb]
      · rw [if_neg hb, if_neg hb]
        exact ih

theorem derase_sublist {α : Type} (k : String) (l : List (String × α)) :
    List.Sublist (derase k l) l := by
  induction l with
  | nil => exact List.Sublist.refl []
  | cons p rest ih =>
    obtain ⟨a, b⟩ := p
    rw [derase_cons]
    by_cases ha : a = k
    · rw [if_pos ha]
      exact List.sublist_cons_self (a, b) rest
    · rw [if_neg ha]
      exact ih.cons₂ (a, b)

theorem dlookup_eq_none_iff {α : Type} {k : String} {l : List (String × α)} :
    dlookup k l = none ↔ k ∉ l.map Prod.fst := by
  induction l with
  | nil => simp [dlookup]
  | cons p rest ih =>
    obtain ⟨a, b⟩ := p
    rw [dlookup_cons]
    by_cases ha : a = k
    · simp [ha]
    · rw [if_neg ha]
      simp only [List.map_cons, List.mem_cons]
      rw [ih]
      constructor
      · intro hn hk
        rcases hk with hk | hk
        · exact ha hk.symm
        · exact hn hk
      · intro hn hk
        exact hn (Or.inr hk)

theorem dlookup_isSome_iff {α : Type} {k : String} {l : List (String × α)} :
    (dlookup k l).isSome ↔ k ∈ l.map Prod.fst := by
  rcases h : dlookup k l with _ | v
  · simpa using dlookup_eq_none_iff.mp h
  · simp only [Option.isSome_some, true_iff]
    by_contra hk
    rw [dlookup_eq_none_iff.mpr hk] at h
    exact Option.noConfusion h

theorem dlookup_mem {α : Type} {k : String} {v : α} {l : List (String × α)}
    (h : dlookup k l = some v) : (k, v) ∈ l := by
  induction l with
  | nil => exact Option.noConfusion h
  | cons p rest ih =>
    obtain ⟨a, b⟩ := p
    rw [dlookup_cons] at h
    by_cases ha : a = k
    · rw [if_pos ha] at h
      obtain rfl := Option.some_injective _ h
      subst ha
      exact List.mem_cons_self _ _
    · rw [if_neg ha] at h
      exact List.mem_cons_of_mem _ (ih h)

theorem mem_dlookup {α : Type} {k : String} {v : α} {l : List (String × α)}
    (hn : (l.map Prod.fst).Nodup) (h : (k, v) ∈ l) : dlookup k l = some v := by
  induction l with
  | nil => simp at h
  | cons p rest ih =>
    obtain ⟨a, b⟩ := p
    simp only [List.map_cons, List.nodup_cons] at hn
    rcases List.mem_cons.mp h with h1 | h2
    · obtain ⟨rfl, rfl⟩ := Prod.mk.injEq k v a b ▸ h1
      rw [dlookup_cons, if_pos rfl]
    · have ha : ¬ a = k := by
        intro hk
        exact hn.1 (hk ▸ List.mem_map.mpr ⟨(k, v), h2, rfl⟩)
      rw [dlookup_cons, if_neg ha]
      exact ih hn.2 h2

theorem keys_dinsert_of_mem {α : Type} {k : String} {l : List (String × α)}
    (h : k ∈ l.map Prod.fst) (v : α) :
    (dinsert k v l).map Prod.fst = l.map Prod.fst := by
  induction l with
  | nil => simp at h
  | cons p rest ih =>
    obtain ⟨a, b⟩ := p
    rw [dinsert_cons]
    by_cases ha : a = k
    · rw [if_pos ha]
      simp only [List.map_cons]
    · rw [if_neg ha]
      have : k ∈ rest.map Prod.fst := by
        simp only [List.map_cons, List.mem_cons] at h
        rcases h with h | h
        · exact absurd h.symm ha
        · exact h
      simp only [List.map_cons, ih this]

theorem keys_dinsert_of_not_mem {α : Type} {k : String} {l : List (String × α)}
    (h : k ∉ l.map Prod.fst) (v : α) :
    (dinsert k v l).map Prod.fst = l.map Prod.fst ++ [k] := by
  induction l with
  | nil => simp [dinsert]
  | cons p rest ih =>
    obtain ⟨a, b⟩ := p
    simp only [List.map_cons, List.mem_cons] at h
    push_neg at h
    rw [dinsert_cons, if_neg (fun hk => h.1 hk.symm)]
    simp only [List.map_cons, List.cons_append, ih h.2]

theorem nodup_keys_dinsert {α : Type} (k : String) (v : α) {l : List (String × α)}
    (h : (l.map Prod.fst).Nodup) : ((dinsert k v l).map Prod.fst).Nodup := by
  by_cases hm : k ∈ l.map Prod.fst
  · rw [keys_dinsert_of_mem hm]
    exact h
  · rw [keys_dinsert_of_not_mem hm]
    simp [List.nodup_append, h, hm]

theorem dinsert_ne_nil {α : Type} (k : String) (v : α) (l : List (String × α)) :
    dinsert k v l ≠ [] := by
  cases l with
  | nil => simp [dinsert]
  | cons p rest =>
    obtain ⟨a, b⟩ := p
    rw [dinsert_cons]
    by_cases ha : a = k
    · rw [if_pos ha]
      exact List.cons_ne_nil _ _
    · rw [if_neg ha]
      exact List.cons_ne_nil _ _

theorem length_dinsert_of_mem {α : Type} {k : String} {l : List (String × α)}
    (h : k ∈ l.map Prod.fst) (v : α) : (dinsert k v l).length = l.length := by
  have hk := keys_dinsert_of_mem h v
  have h1 : ((dinsert k v l).map Prod.fst).length = ((l.map Prod.fst)).length := by rw [hk]
  simpa using h1

theorem dlookup_derase_self {α : Type} {k : String} {l : List (String × α)}
    (h : (l.map Prod.fst).Nodup) : dlookup k (derase k l) = none := by
  induction l with
  | nil => rfl
  | cons p rest ih =>
    obtain ⟨a, b⟩ := p
    simp only [List.map_cons, List.nodup_cons] at h
    rw [derase_cons]
    by_cases ha : a = k
    · rw [if_pos ha, dlookup_eq_none_iff]
      exact ha ▸ h.1
    · rw [if_neg ha, dlookup_cons, if_neg ha]
      exact ih h.2

theorem dlookup_derase_none {α : Type} {k' k : String} {l : List (String × α)}
    (h : dlookup k' l = none) : dlookup k' (derase k l) = none := by
  rw [dlookup_eq_none_iff] at h ⊢
  intro hk
  exact h (((derase_sublist k l).map Prod.fst).mem hk)

theorem derase_append_of_not_mem {α : Type} {k : String} {kept : List (String × α)}
    (h : k ∉ kept.map Prod.fst) (l : List (String × α)) :
    derase k (kept ++ l) = kept ++ derase k l := by
  induction kept with
  | nil => simp
  | cons p rest ih =>
    obtain ⟨a, b⟩ := p
    simp only [List.map_cons, List.mem_cons] at h
    push_neg at h
    rw [List.cons_append, derase_cons, if_neg (fun hk => h.1 hk.symm), ih h.2,
      List.cons_append]

theorem mem_dinsert {α : Type} {p : String × α} {k : String} {v : α}
    {l : List (String × α)} (h : p ∈ dinsert k v l) : p = (k, v) ∨ p ∈ l := by
  induction l with
  | nil => simpa [dinsert] using h
  | cons q rest ih =>
    obtain ⟨a, b⟩ := q
    rw [dinsert_cons] at h
    by_cases ha : a = k
    · rw [if_pos ha] at h
      rcases List.mem_cons.mp h with h1 | h2
      · left
        rw [h1, ha]
      · right
        exact List.mem_cons_of_mem _ h2
    · rw [if_neg ha] at h
      rcases List.mem_cons.mp h with h1 | h2
      · right
        exact h1 ▸ List.mem_cons_self _ _
      · rcases ih h2 with h3 | h4
        · exact Or.inl h3
        · exact Or.inr (List.mem_cons_of_mem _ h4)

theorem dlookup_append_some {α : Type} {k : String} {v : α} {l1 : List (String × α)}
    (h : dlookup k l1 = some v) (l2 : List (String × α)) :
    dlookup k (l1 ++ l2) = some v := by
  induction l1 with
  | nil => exact Option.noConfusion h
  | cons p rest ih =>
    obtain ⟨a, b⟩ := p
    rw [dlookup_cons] at h
    rw [List.cons_append, dlookup_cons]
    by_cases ha : a = k
    · rwa [if_pos ha] at h ⊢
    · rw [if_neg ha] at h ⊢
      exact ih h

theorem dlookup_append_none {α : Type} {k : String} {l1 : List (String × α)}
    (h : dlookup k l1 = none) (l2 : List (String × α)) :
    dlookup k (l1 ++ l2) = dlookup k l2 := by
  induction l1 with
  | nil => rfl
  | cons p rest ih =>
    obtain ⟨a, b⟩ := p
    rw [dlookup_cons] at h
    rw [List.cons_append, dlookup_cons]
    by_cases ha : a = k
    · rw [if_pos ha] at h
      exact Option.noConfusion h
    · rw [if_neg ha] at h ⊢
      exact ih h

theorem dlookup_dsetdefault_self {α : Type} (k : String) (v : α) (l : List (String × α)) :
    dlookup k (dsetdefault k v l) = some ((dlookup k l).getD v) := by
  rcases h : dlookup k l with _ | w
  · rw [dsetdefault, h]
    simp only [Option.isSome_none, Bool.false_eq_true, if_false, Option.getD_none]
    rw [dlookup_append_none h, dlookup_cons, if_pos rfl]
  · rw [dsetdefault, h]
    simp [h]

theorem dlookup_dsetdefault_ne {α : Type} {k' k : String} (h : k' ≠ k) (v : α)
    (l : List (String × α)) : dlookup k' (dsetdefault k v l) = dlookup k' l := by
  rw [dsetdefault]
  split
  · rfl
  · rcases hl : dlookup k' l with _ | w
    · rw [dlookup_append_none hl, dlookup_cons, if_neg (fun hk => h hk.symm), dlookup_nil]
    · exact dlookup_append_some hl _

theorem nodup_keys_dsetdefault {α : Type} (k : String) (v : α) {l : List (String × α)}
    (h : (l.map Prod.fst).Nodup) : ((dsetdefault k v l).map Prod.fst).Nodup := by
  rw [dsetdefault]
  split
  · exact h
  · next hk =>
    have hm : k ∉ l.map Prod.fst := by
      intro hm
      exact hk (dlookup_isSome_iff.mpr hm)
    simp [List.nodup_append, h, hm]

theorem mem_dsetdefault {α : Type} {p : String × α} {k : String} {v : α}
    {l : List (String × α)} (h : p ∈ dsetdefault k v l) : p ∈ l ∨ p = (k, v) := by
  rw [dsetdefault] at h
  split at h
  · exact Or.inl h
  · rcases List.mem_append.mp h with h1 | h2
    · exact Or.inl h1
    · exact Or.inr (by simpa using h2)

/-! ### Disconnect machinery lemmas -/

theorem discRadStep_frame {r room : String} (h : r ≠ room) (uid : String)
    (rad : List (String × List (String × Reading))) :
    dlookup r (discRadStep room uid rad) = dlookup r rad := by
  cases hm : dlookup room rad with
  | none => simp only [discRadStep, hm]
  | some m =>
    simp only [discRadStep, hm]
    by_cases hus : (dlookup uid m).isSome
    · rw [if_pos hus]
      exact dlookup_dinsert_ne h _ _
    · rw [if_neg hus]

theorem discRadStep_keys (room uid : String)
    (rad : List (String × List (String × Reading))) :
    (discRadStep room uid rad).map Prod.fst = rad.map Prod.fst := by
  cases hm : dlookup room rad with
  | none => simp only [discRadStep, hm]
  | some m =>
    simp only [discRadStep, hm]
    by_cases hus : (dlookup uid m).isSome
    · rw [if_pos hus]
      exact keys_dinsert_of_mem (dlookup_isSome_iff.mp (hm ▸ rfl)) _
    · rw [if_neg hus]

theorem discRadStep_none {room : String} (uid : String)
    {rad : List (String × List (String × Reading))}
    (h : dlookup room rad = none) :
    dlookup room (discRadStep room uid rad) = none := by
  simp only [discRadStep, h]

theorem discRadStep_some {room : String} (uid : String)
    {rad : List (String × List (String × Reading))} {m₀ : List (String × Reading)}
    (h : dlookup room rad = some m₀) :
    ∃ m', dlookup room (discRadStep room uid rad) = some m' ∧ List.Sublist m' m₀ := by
  simp only [discRadStep, h]
  by_cases hus : (dlookup uid m₀).isSome
  · rw [if_pos hus]
    exact ⟨derase uid m₀, dlookup_dinsert_self _ _ _, derase_sublist uid m₀⟩
  · rw [if_neg hus]
    exact ⟨m₀, h, List.Sublist.refl m₀⟩

theorem discUsers_frame (sid room r : String) (h : r ≠ room) :
    ∀ (pending : List (String × UserData)) (st : ServerState),
      dlookup r (discUsers sid room pending st).1.rooms = dlookup r st.rooms ∧
      dlookup r (discUsers sid room pending st).1.room_attention_data =
        dlookup r st.room_attention_data := by
  intro pending
  induction pending with
  | nil => intro st; exact ⟨rfl, rfl⟩
  | cons q rest ih =>
    intro st
    obtain ⟨uid, ud⟩ := q
    by_cases hm : ud.sid = sid
    · rw [discUsers, if_pos hm]
      have h1 := ih (discStep1 room uid st)
      refine ⟨h1.1.trans ?_, h1.2.trans ?_⟩
      · exact dlookup_dinsert_ne h _ _
      · exact discRadStep_frame h uid _
    · rw [discUsers, if_neg hm]
      exact ih st

theorem discUsers_main (sid room : String) :
    ∀ (pending kept : List (String × UserData)) (st : ServerState),
      dlookup room st.rooms = some (kept ++ pending) →
      ((kept ++ pending).map Prod.fst).Nodup →
      dlookup room (discUsers sid room pending st).1.rooms =
        some (kept ++ pending.filter (fun p => decide (p.2.sid ≠ sid))) ∧
      (discUsers sid room pending st).1.rooms.map Prod.fst = st.rooms.map Prod.fst ∧
      (discUsers sid room pending st).1.room_attention_data.map Prod.fst =
        st.room_attention_data.map Prod.fst ∧
      (∀ m₀, dlookup room st.room_attention_data = some m₀ →
        ∃ m', dlookup room (discUsers sid room pending st).1.room_attention_data = some m' ∧
          List.Sublist m' m₀) ∧
      (dlookup room st.room_attention_data = none →
        dlookup room (discUsers sid room pending st).1.room_attention_data = none) := by
  intro pending
  induction pending with
  | nil =>
    intro kept st h1 _
    refine ⟨by simpa using h1, rfl, rfl, ?_, fun hm => hm⟩
    intro m₀ hm
    exact ⟨m₀, hm, List.Sublist.refl m₀⟩
  | cons q rest ih =>
    intro kept st h1 h2
    obtain ⟨uid, ud⟩ := q
    by_cases hm : ud.sid = sid
    · rw [discUsers, if_pos hm]
      have h2' : ((kept.map Prod.fst) ++ uid :: rest.map Prod.fst).Nodup := by
        simpa using h2
      have huid : uid ∉ kept.map Prod.fst := by
        intro hin
        rcases List.nodup_append.mp h2' with ⟨_, _, hdisj⟩
        exact hdisj hin (List.mem_cons_self _ _)
      have herase : derase uid ((dlookup room st.rooms).getD []) = kept ++ rest := by
        rw [h1, Option.getD_some, derase_append_of_not_mem huid, derase_cons, if_pos rfl]
      have hroomem : room ∈ st.rooms.map Prod.fst :=
        dlookup_isSome_iff.mp (by rw [h1]; rfl)
      have hrooms' : (discStep1 room uid st).rooms = dinsert room (kept ++ rest) st.rooms := by
        rw [discStep1, herase]
      have hlk : dlookup room (discStep1 room uid st).rooms = some (kept ++ rest) := by
        rw [hrooms']
        exact dlookup_dinsert_self _ _ _
      have hnodup : ((kept ++ rest).map Prod.fst).Nodup := by
        have hsub : List.Sublist (kept ++ rest) (kept ++ (uid, ud) :: rest) :=
          List.Sublist.append_left (List.sublist_cons_self _ _) kept
        exact (hsub.map Prod.fst).nodup h2
      have hnext := ih kept (discStep1 room uid st) hlk hnodup
      refine ⟨?_, ?_, ?_, ?_, ?_⟩
      · rw [hnext.1]
        simp [List.filter_cons, hm]
      · rw [hnext.2.1, hrooms', keys_dinsert_of_mem hroomem]
      · rw [hnext.2.2.1]
        exact discRadStep_keys room uid _
      · intro m₀ hm₀
        rcases discRadStep_some uid hm₀ with ⟨m₁, hm₁, hsub₁⟩
        rcases hnext.2.2.2.1 m₁ hm₁ with ⟨m', hm', hsub'⟩
        exact ⟨m', hm', hsub'.trans hsub₁⟩
      · intro hm₀
        exact hnext.2.2.2.2 (discRadStep_none uid hm₀)
    · rw [discUsers, if_neg hm]
      have h1' : dlookup room st.rooms = some ((kept ++ [(uid, ud)]) ++ rest) := by
        rw [h1, List.append_assoc]
        rfl
      have h2'' : (((kept ++ [(uid, ud)]) ++ rest).map Prod.fst).Nodup := by
        rw [List.append_assoc]
        simpa using h2
      have hnext := ih (kept ++ [(uid, ud)]) st h1' h2''
      refine ⟨?_, hnext.2.1, hnext.2.2.1, hnext.2.2.2.1, hnext.2.2.2.2⟩
      rw [hnext.1]
      simp [List.filter_cons, hm]

/-- Well-formedness shared by every state that a real Python run can
produce: keys are unique at both nesting levels of both dicts. -/
def WF (st : ServerState) : Prop :=
  (st.rooms.map Prod.fst).Nodup ∧
  (st.room_attention_data.map Prod.fst).Nodup ∧
  (∀ p ∈ st.rooms, (p.2.map Prod.fst).Nodup) ∧
  (∀ p ∈ st.room_attention_data, (p.2.map Prod.fst).Nodup)

instance decidableWF (st : ServerState) : Decidable (WF st) := by
  unfold WF
  infer_instance

theorem discRoom_spec (sid r : String) (st : ServerState) (hwf : WF st) :
    WF (discRoom sid r st).1 ∧
    (∀ r', r' ≠ r →
      dlookup r' (discRoom sid r st).1.rooms = dlookup r' st.rooms ∧
      dlookup r' (discRoom sid r st).1.room_attention_data =
        dlookup r' st.room_attention_data) ∧
    (∀ u', dlookup r (discRoom sid r st).1.rooms = some u' →
      u' ≠ [] ∧ ∀ p ∈ u', p.2.sid ≠ sid) := by
  obtain ⟨hk1, hk2, hi1, hi2⟩ := hwf
  cases hl : dlookup r st.rooms with
  | none =>
    have hout : (discRoom sid r st).1 = st := by
      simp only [discRoom, hl]
    rw [hout]
    refine ⟨⟨hk1, hk2, hi1, hi2⟩, fun r' _ => ⟨rfl, rfl⟩, fun u' hu => ?_⟩
    rw [hl] at hu
    exact Option.noConfusion hu
  | some users =>
    have husers : dlookup r st.rooms = some ([] ++ users) := by simpa using hl
    have hnodup : (([] ++ users).map Prod.fst).Nodup := by
      simpa using hi1 (r, users) (dlookup_mem hl)
    have hmain := discUsers_main sid r users [] st husers hnodup
    have hlkF : dlookup r (discUsers sid r users st).1.rooms =
        some (users.filter (fun p => decide (p.2.sid ≠ sid))) := by
      simpa using hmain.1
    have hkeys1 : (discUsers sid r users st).1.rooms.map Prod.fst =
        st.rooms.map Prod.fst := hmain.2.1
    have hkeys2 : (discUsers sid r users st).1.room_attention_data.map Prod.fst =
        st.room_attention_data.map Prod.fst := hmain.2.2.1
    have hnod1 : ((discUsers sid r users st).1.rooms.map Prod.fst).Nodup := hkeys1 ▸ hk1
    have hnod2 : ((discUsers sid r users st).1.room_attention_data.map Prod.fst).Nodup :=
      hkeys2 ▸ hk2
    have hinner1 : ∀ p ∈ (discUsers sid r users st).1.rooms, (p.2.map Prod.fst).Nodup := by
      intro p hp
      obtain ⟨a, b⟩ := p
      have hlp : dlookup a (discUsers sid r users st).1.rooms = some b :=
        mem_dlookup hnod1 hp
      by_cases hpr : a = r
      · rw [hpr, hlkF] at hlp
        obtain hfe := Option.some_injective _ hlp
        rw [← hfe]
        have hsubf : List.Sublist (users.filter (fun p => decide (p.2.sid ≠ sid))) users :=
          List.filter_sublist users
        exact ((hsubf.map Prod.fst).nodup (by simpa using hnodup))
      · rw [(discUsers_frame sid r a hpr users st).1] at hlp
        exact hi1 (a, b) (dlookup_mem hlp)
    have hinner2 : ∀ p ∈ (discUsers sid r users st).1.room_attention_data,
        (p.2.map Prod.fst).Nodup := by
      intro p hp
      obtain ⟨a, b⟩ := p
      have hlp : dlookup a (discUsers sid r users st).1.room_attention_data = some b :=
        mem_dlookup hnod2 hp
      by_cases hpr : a = r
      · rw [hpr] at hlp
        cases hrad : dlookup r st.room_attention_data with
        | none =>
          rw [hmain.2.2.2.2 hrad] at hlp
          exact Option.noConfusion hlp
        | some m₀ =>
          rcases hmain.2.2.2.1 m₀ hrad with ⟨m', hm', hsub'⟩
          rw [hm'] at hlp
          obtain hfe := Option.some_injective _ hlp
          rw [← hfe]
          exact ((hsub'.map Prod.fst).nodup (hi2 (r, m₀) (dlookup_mem hrad)))
      · rw [(discUsers_frame sid r a hpr users st).2] at hlp
        exact hi2 (a, b) (dlookup_mem hlp)
    cases hFc : users.filter (fun p => decide (p.2.sid ≠ sid)) with
    | nil =>
      have hcond : ((dlookup r (discUsers sid r users st).1.rooms).getD []).isEmpty = true := by
        rw [hlkF, Option.getD_some, hFc]
        rfl
      have hout : (discRoom sid r st).1 =
          ⟨derase r (discUsers sid r users st).1.rooms,
           derase r (discUsers sid r users st).1.room_attention_data⟩ := by
        simp only [discRoom, hl]
        rw [if_pos hcond]
      rw [hout]
      refine ⟨⟨?_, ?_, ?_, ?_⟩, ?_, ?_⟩
      · exact ((derase_sublist r _).map Prod.fst).nodup hnod1
      · exact ((derase_sublist r _).map Prod.fst).nodup hnod2
      · intro p hp
        exact hinner1 p ((derase_sublist r _).subset hp)
      · intro p hp
        exact hinner2 p ((derase_sublist r _).subset hp)
      · intro r' hr'
        constructor
        · rw [dlookup_derase_ne hr', (discUsers_frame sid r r' hr' users st).1]
        · rw [dlookup_derase_ne hr', (discUsers_frame sid r r' hr' users st).2]
      · intro u' hu'
        rw [show (⟨derase r (discUsers sid r users st).1.rooms,
            derase r (discUsers sid r users st).1.room_attention_data⟩ :
            ServerState).rooms = derase r (discUsers sid r users st).1.rooms from rfl,
          dlookup_derase_self hnod1] at hu'
        exact Option.noConfusion hu'
    | cons hd tl =>
      have hcond : ¬ ((dlookup r (discUsers sid r users st).1.rooms).getD []).isEmpty = true := by
        rw [hlkF, Option.getD_some, hFc]
        simp
      have hout : (discRoom sid r st).1 = (discUsers sid r users st).1 := by
        simp only [discRoom, hl]
        rw [if_neg hcond]
      rw [hout]
      refine ⟨⟨hnod1, hnod2, hinner1, hinner2⟩, ?_, ?_⟩
      · intro r' hr'
        exact ⟨(discUsers_frame sid r r' hr' users st).1,
          (discUsers_frame sid r r' hr' users st).2⟩
      · intro u' hu'
        rw [hlkF, hFc] at hu'
        obtain hfe := Option.some_injective _ hu'
        constructor
        · rw [← hfe]
          exact List.cons_ne_nil hd tl
        · intro p hp
          rw [← hfe] at hp
          rw [← hFc] at hp
          have hmem := List.mem_filter.mp hp
          exact of_decide_eq_true hmem.2

theorem discRooms_spec (sid : String) :
    ∀ (snap : List String) (st : ServerState), snap.Nodup → WF st →
      WF (discRooms sid snap st).1 ∧
      (∀ r, r ∉ snap →
        dlookup r (discRooms sid snap st).1.rooms = dlookup r st.rooms ∧
        dlookup r (discRooms sid snap st).1.room_attention_data =
          dlookup r st.room_attention_data) ∧
      (∀ r ∈ snap, ∀ u, dlookup r (discRooms sid snap st).1.rooms = some u →
        u ≠ [] ∧ ∀ p ∈ u, p.2.sid ≠ sid) := by
  intro snap
  induction snap with
  | nil =>
    intro st _ hwf
    exact ⟨hwf, fun r _ => ⟨rfl, rfl⟩, fun r hr => absurd hr (List.not_mem_nil r)⟩
  | cons r0 rs ih =>
    intro st hnd hwf
    have hspec := discRoom_spec sid r0 st hwf
    have hnd' : rs.Nodup := (List.nodup_cons.mp hnd).2
    have hr0 : r0 ∉ rs := (List.nodup_cons.mp hnd).1
    have hih := ih (discRoom sid r0 st).1 hnd' hspec.1
    have hred : (discRooms sid (r0 :: rs) st).1 = (discRooms sid rs (discRoom sid r0 st).1).1 :=
      rfl
    rw [hred]
    refine ⟨hih.1, ?_, ?_⟩
    · intro r hr
      have hr1 : r ≠ r0 := fun he => hr (he ▸ List.mem_cons_self r0 rs)
      have hr2 : r ∉ rs := fun hm => hr (List.mem_cons_of_mem r0 hm)
      exact ⟨(hih.2.1 r hr2).1.trans (hspec.2.1 r hr1).1,
        (hih.2.1 r hr2).2.trans (hspec.2.1 r hr1).2⟩
    · intro r hr u hu
      rcases List.mem_cons.mp hr with hre | hrm
      · subst hre
        rw [(hih.2.1 r hr0).1] at hu
        exact hspec.2.2 u hu
      · exact hih.2.2 r hrm u hu

theorem disconnect_spec (sid : String) (st : ServerState) (hwf : WF st) :
    WF (disconnect sid st).1 ∧
    (∀ r u, dlookup r (disconnect sid st).1.rooms = some u →
      u ≠ [] ∧ ∀ p ∈ u, p.2.sid ≠ sid) := by
  have h := discRooms_spec sid (st.rooms.map Prod.fst) st hwf.1 hwf
  refine ⟨h.1, fun r u hu => ?_⟩
  by_cases hr : r ∈ st.rooms.map Prod.fst
  · exact h.2.2 r hr u hu
  · rw [show (disconnect sid st).1 = (discRooms sid (st.rooms.map Prod.fst) st).1 from rfl,
      (h.2.1 r hr).1, dlookup_eq_none_iff.mpr hr] at hu
    exact Option.noConfusion hu

theorem discUsers_no_match (sid room : String) :
    ∀ (pending : List (String × UserData)) (st : ServerState),
      (∀ p ∈ pending, p.2.sid ≠ sid) →
      discUsers sid room pending st = (st, []) := by
  intro pending
  induction pending with
  | nil => intro st _; rfl
  | cons q rest ih =>
    intro st h
    obtain ⟨uid, ud⟩ := q
    rw [discUsers, if_neg (h (uid, ud) (List.mem_cons_self _ _))]
    exact ih st (fun p hp => h p (List.mem_cons_of_mem _ hp))

theorem discRoom_no_match (sid r : String) (st : ServerState)
    (h : ∀ u, dlookup r st.rooms = some u → u ≠ [] ∧ ∀ p ∈ u, p.2.sid ≠ sid) :
    discRoom sid r st = (st, []) := by
  cases hl : dlookup r st.rooms with
  | none => simp only [discRoom, hl]
  | some users =>
    have hu := h users hl
    have hnm := discUsers_no_match sid r users st hu.2
    have hcond : ¬ ((dlookup r ((discUsers sid r users st).1).rooms).getD []).isEmpty = true := by
      rw [hnm]
      rw [show ((st, ([] : List Emit)).1) = st from rfl, hl]
      simpa [List.isEmpty_iff] using hu.1
    simp only [discRoom, hl]
    rw [if_neg hcond, hnm]

theorem discRooms_no_match (sid : String) :
    ∀ (snap : List String) (st : ServerState),
      (∀ r u, dlookup r st.rooms = some u → u ≠ [] ∧ ∀ p ∈ u, p.2.sid ≠ sid) →
      discRooms sid snap st = (st, []) := by
  intro snap
  induction snap with
  | nil => intro st _; rfl
  | cons r0 rs ih =>
    intro st h
    have h0 := discRoom_no_match sid r0 st (h r0)
    have hred : discRooms sid (r0 :: rs) st =
        ((discRooms sid rs (discRoom sid r0 st).1).1,
         (discRoom sid r0 st).2 ++ (discRooms sid rs (discRoom sid r0 st).1).2) := rfl
    rw [hred, h0]
    rw [show ((st, ([] : List Emit)).1) = st from rfl, ih st h]
    rfl

theorem disconnect_id (sid : String) (st : ServerState)
    (h : ∀ r u, dlookup r st.rooms = some u → u ≠ [] ∧ ∀ p ∈ u, p.2.sid ≠ sid) :
    disconnect sid st = (st, []) :=
  discRooms_no_match sid (st.rooms.map Prod.fst) st h

/-! ### Invariant preservation through the event handlers -/

theorem join_room_state (sid : String) (data : JoinData) (st : ServerState) :
    (join_room sid data st).1 =
      ⟨dinsert (data.room.getD "default")
        (dinsert sid ⟨data.name.getD "Anonymous", sid, data.user_id⟩
          ((dlookup (data.room.getD "default")
            (dsetdefault (data.room.getD "default") [] st.rooms)).getD []))
        (dsetdefault (data.room.getD "default") [] st.rooms),
       dsetdefault (data.room.getD "default") [] st.room_attention_data⟩ := rfl

theorem attention_update_cases (sid : String) (data : AttnData) (now : Nat)
    (st : ServerState) :
    (attention_update sid data now st).1 = st ∨
    ∃ rc m, data.room = some rc ∧ rc ≠ "" ∧
      dlookup rc st.room_attention_data = some m ∧
      (attention_update sid data now st).1 =
        ⟨st.rooms, dinsert rc (dinsert sid (attnReading data now) m)
          st.room_attention_data⟩ := by
  cases hr : data.room with
  | none =>
    left
    simp only [attention_update, hr]
  | some rc =>
    by_cases he : rc = ""
    · left
      simp only [attention_update, hr, if_pos he]
    · cases hm : dlookup rc st.room_attention_data with
      | none =>
        left
        simp only [attention_update, hr, if_neg he, hm]
      | some m =>
        right
        refine ⟨rc, m, rfl, he, hm, ?_⟩
        simp only [attention_update, hr, if_neg he, hm]

theorem step_preserves_wf_noempty (st : ServerState) (e : Ev) (hwf : WF st)
    (hne : ∀ r u, dlookup r st.rooms = some u → u ≠ []) :
    WF (step st e) ∧ (∀ r u, dlookup r (step st e).rooms = some u → u ≠ []) := by
  obtain ⟨hk1, hk2, hi1, hi2⟩ := hwf
  cases e with
  | join sid data =>
    rw [show step st (.join sid data) = (join_room sid data st).1 from rfl, join_room_state]
    have hbefore : ((dlookup (data.room.getD "default")
        (dsetdefault (data.room.getD "default") [] st.rooms)).getD []) =
        (dlookup (data.room.getD "default") st.rooms).getD [] := by
      rw [dlookup_dsetdefault_self, Option.getD_some]
    have hbnodup : (((dlookup (data.room.getD "default") st.rooms).getD []).map Prod.fst).Nodup := by
      rcases hl : dlookup (data.room.getD "default") st.rooms with _ | u0
      · simp
      · simpa using hi1 (data.room.getD "default", u0) (dlookup_mem hl)
    constructor
    · refine ⟨?_, ?_, ?_, ?_⟩
      · exact nodup_keys_dinsert _ _ (nodup_keys_dsetdefault _ _ hk1)
      · exact nodup_keys_dsetdefault _ _ hk2
      · intro p hp
        rcases mem_dinsert hp with hpe | hpm
        · rw [hpe]
          apply nodup_keys_dinsert
          rw [hbefore]
          exact hbnodup
        · rcases mem_dsetdefault hpm with hin | hpe2
          · exact hi1 p hin
          · rw [hpe2]
            simp
      · intro p hp
        rcases mem_dsetdefault hp with hin | hpe2
        · exact hi2 p hin
        · rw [hpe2]
          simp
    · intro r u hu
      by_cases hr : r = data.room.getD "default"
      · subst hr
        rw [dlookup_dinsert_self] at hu
        obtain hue := Option.some_injective _ hu
        rw [← hue]
        exact dinsert_ne_nil _ _ _
      · rw [dlookup_dinsert_ne hr, dlookup_dsetdefault_ne hr] at hu
        exact hne r u hu
  | attn sid data now =>
    rcases attention_update_cases sid data now st with hst | ⟨rc, m, _, _, hm, hst⟩
    · rw [show step st (.attn sid data now) = (attention_update sid data now st).1 from rfl, hst]
      exact ⟨⟨hk1, hk2, hi1, hi2⟩, hne⟩
    · rw [show step st (.attn sid data now) = (attention_update sid data now st).1 from rfl, hst]
      refine ⟨⟨hk1, ?_, hi1, ?_⟩, hne⟩
      · rw [keys_dinsert_of_mem (dlookup_isSome_iff.mp (by rw [hm]; rfl)) _]
        exact hk2
      · intro p hp
        rcases mem_dinsert hp with hpe | hpm
        · rw [hpe]
          exact nodup_keys_dinsert _ _ (by simpa using hi2 (rc, m) (dlookup_mem hm))
        · exact hi2 p hpm
  | disc sid =>
    have h := disconnect_spec sid st ⟨hk1, hk2, hi1, hi2⟩
    exact ⟨h.1, fun r u hu => (h.2 r u hu).1⟩

theorem foldl_preserves_wf_noempty :
    ∀ (evs : List Ev) (st : ServerState), WF st →
      (∀ r u, dlookup r st.rooms = some u → u ≠ []) →
      WF (evs.foldl step st) ∧
        (∀ r u, dlookup r (evs.foldl step st).rooms = some u → u ≠ []) := by
  intro evs
  induction evs with
  | nil => intro st h1 h2; exact ⟨h1, h2⟩
  | cons e rest ih =>
    intro st h1 h2
    have h := step_preserves_wf_noempty st e h1 h2
    exact ih (step st e) h.1 h.2

theorem run_wf_noempty (evs : List Ev) :
    WF (run evs) ∧ (∀ r u, dlookup r (run evs).rooms = some u → u ≠ []) := by
  refine foldl_preserves_wf_noempty evs ⟨[], []⟩ ?_ ?_
  · refine ⟨List.nodup_nil, List.nodup_nil, ?_, ?_⟩ <;> intro p hp <;> simp at hp
  · intro r u hu
    exact Option.noConfusion hu

/-! ### Further helper lemmas -/

theorem round1_zero : round1 0 = 0 := by
  norm_num [round1, roundHalfEven]

theorem attention_update_drop (sid : String) (data : AttnData) (now : Nat) (st : ServerState)
    (h : data.room = none ∨ ∃ rc, data.room = some rc ∧
      (rc = "" ∨ dlookup rc st.room_attention_data = none)) :
    attention_update sid data now st = (st, []) := by
  rcases h with h | ⟨rc, hrc, h2⟩
  · simp only [attention_update, h]
  · rcases h2 with he | hn
    · simp only [attention_update, hrc, if_pos he]
    · by_cases he : rc = ""
      · simp only [attention_update, hrc, if_pos he]
      · simp only [attention_update, hrc, if_neg he, hn]

theorem discUsers_keys (sid room : String) :
    ∀ (pending : List (String × UserData)) (st : ServerState),
      room ∈ st.rooms.map Prod.fst →
      (discUsers sid room pending st).1.rooms.map Prod.fst = st.rooms.map Prod.fst ∧
      (discUsers sid room pending st).1.room_attention_data.map Prod.fst =
        st.room_attention_data.map Prod.fst := by
  intro pending
  induction pending with
  | nil => intro st _; exact ⟨rfl, rfl⟩
  | cons q rest ih =>
    intro st hmem
    obtain ⟨uid, ud⟩ := q
    by_cases hm : ud.sid = sid
    · rw [discUsers, if_pos hm]
      have hkr : (discStep1 room uid st).rooms.map Prod.fst = st.rooms.map Prod.fst :=
        keys_dinsert_of_mem hmem _
      have hka : (discStep1 room uid st).room_attention_data.map Prod.fst =
          st.room_attention_data.map Prod.fst := discRadStep_keys room uid _
      have hmem' : room ∈ (discStep1 room uid st).rooms.map Prod.fst := by
        rw [hkr]
        exact hmem
      have hih := ih (discStep1 room uid st) hmem'
      exact ⟨hih.1.trans hkr, hih.2.trans hka⟩
    · rw [discUsers, if_neg hm]
      exact ih st hmem

theorem discRoom_frame (sid r r' : String) (h : r' ≠ r) (st : ServerState) :
    dlookup r' (discRoom sid r st).1.rooms = dlookup r' st.rooms ∧
    dlookup r' (discRoom sid r st).1.room_attention_data =
      dlookup r' st.room_attention_data := by
  cases hl : dlookup r st.rooms with
  | none =>
    have hout : (discRoom sid r st).1 = st := by
      simp only [discRoom, hl]
    rw [hout]
    exact ⟨rfl, rfl⟩
  | some users =>
    by_cases hc : ((dlookup r (discUsers sid r users st).1.rooms).getD []).isEmpty = true
    · have hout : (discRoom sid r st).1 =
          ⟨derase r (discUsers sid r users st).1.rooms,
           derase r (discUsers sid r users st).1.room_attention_data⟩ := by
        simp only [discRoom, hl]
        rw [if_pos hc]
      rw [hout]
      exact ⟨(dlookup_derase_ne h _).trans (discUsers_frame sid r r' h users st).1,
             (dlookup_derase_ne h _).trans (discUsers_frame sid r r' h users st).2⟩
    · have hout : (discRoom sid r st).1 = (discUsers sid r users st).1 := by
        simp only [discRoom, hl]
        rw [if_neg hc]
      rw [hout]
      exact discUsers_frame sid r r' h users st

theorem discRoom_keys (sid r : String) (st : ServerState) :
    List.Sublist ((discRoom sid r st).1.rooms.map Prod.fst) (st.rooms.map Prod.fst) ∧
    List.Sublist ((discRoom sid r st).1.room_attention_data.map Prod.fst)
      (st.room_attention_data.map Prod.fst) := by
  cases hl : dlookup r st.rooms with
  | none =>
    have hout : (discRoom sid r st).1 = st := by
      simp only [discRoom, hl]
    rw [hout]
    exact ⟨List.Sublist.refl _, List.Sublist.refl _⟩
  | some users =>
    have hmem : r ∈ st.rooms.map Prod.fst := dlookup_isSome_iff.mp (by rw [hl]; rfl)
    have hkeys := discUsers_keys sid r users st hmem
    by_cases hc : ((dlookup r (discUsers sid r users st).1.rooms).getD []).isEmpty = true
    · have hout : (discRoom sid r st).1 =
          ⟨derase r (discUsers sid r users st).1.rooms,
           derase r (discUsers sid r users st).1.room_attention_data⟩ := by
        simp only [discRoom, hl]
        rw [if_pos hc]
      rw [hout]
      constructor
      · exact (hkeys.1 ▸ (derase_sublist r (discUsers sid r users st).1.rooms).map Prod.fst)
      · exact (hkeys.2 ▸
          (derase_sublist r (discUsers sid r users st).1.room_attention_data).map Prod.fst)
    · have hout : (discRoom sid r st).1 = (discUsers sid r users st).1 := by
        simp only [discRoom, hl]
        rw [if_neg hc]
      rw [hout]
      exact ⟨hkeys.1 ▸ List.Sublist.refl _, hkeys.2 ▸ List.Sublist.refl _⟩

theorem discRooms_frame (sid : String) :
    ∀ (snap : List String) (st : ServerState) (r : String), r ∉ snap →
      dlookup r (discRooms sid snap st).1.rooms = dlookup r st.rooms ∧
      dlookup r (discRooms sid snap st).1.room_attention_data =
        dlookup r st.room_attention_data := by
  intro snap
  induction snap with
  | nil => intro st r _; exact ⟨rfl, rfl⟩
  | cons r0 rs ih =>
    intro st r hr
    have hr1 : r ≠ r0 := fun he => hr (he ▸ List.mem_cons_self r0 rs)
    have hr2 : r ∉ rs := fun hm => hr (List.mem_cons_of_mem r0 hm)
    have hred : (discRooms sid (r0 :: rs) st).1 = (discRooms sid rs (discRoom sid r0 st).1).1 :=
      rfl
    rw [hred]
    exact ⟨(ih (discRoom sid r0 st).1 r hr2).1.trans (discRoom_frame sid r0 r hr1 st).1,
           (ih (discRoom sid r0 st).1 r hr2).2.trans (discRoom_frame sid r0 r hr1 st).2⟩

theorem discRoom_sole (sid uid room : String) (ud : UserData) (st : ServerState)
    (hsid : ud.sid = sid)
    (hk1 : (st.rooms.map Prod.fst).Nodup)
    (hk2 : (st.room_attention_data.map Prod.fst).Nodup)
    (hsole : dlookup room st.rooms = some [(uid, ud)]) :
    dlookup room (discRoom sid room st).1.rooms = none ∧
    dlookup room (discRoom sid room st).1.room_attention_data = none ∧
    (discRoom sid room st).2 =
      [Emit.userLeft room sid uid, Emit.dashboardUpdate room ⟨0, 0, 0, 0⟩ []] := by
  have hmem : room ∈ st.rooms.map Prod.fst := dlookup_isSome_iff.mp (by rw [hsole]; rfl)
  have hderase : derase uid ((dlookup room st.rooms).getD []) = [] := by
    rw [hsole, Option.getD_some, derase_cons, if_pos rfl]
  have hs1rooms : (discStep1 room uid st).rooms = dinsert room [] st.rooms := by
    rw [discStep1, hderase]
  have hlk : dlookup room (discStep1 room uid st).rooms = some [] := by
    rw [hs1rooms]
    exact dlookup_dinsert_self _ _ _
  have h1 : discUsers sid room [(uid, ud)] st =
      (discStep1 room uid st,
       [Emit.userLeft room sid uid,
        broadcastDashboardUpdate (discStep1 room uid st) room]) := by
    rw [discUsers, if_pos hsid]
    rfl
  have hpis : participantsInfo (discStep1 room uid st) room = [] := by
    simp [participantsInfo, hlk]
  have hstats : broadcastDashboardStats (discStep1 room uid st) room = ⟨0, 0, 0, 0⟩ := by
    simp [broadcastDashboardStats, hpis, round1_zero]
  have hdu : broadcastDashboardUpdate (discStep1 room uid st) room =
      Emit.dashboardUpdate room ⟨0, 0, 0, 0⟩ [] := by
    rw [broadcastDashboardUpdate, hstats, hpis]
  have hcond : ((dlookup room (discUsers sid room [(uid, ud)] st).1.rooms).getD []).isEmpty
      = true := by
    rw [h1, show ((discStep1 room uid st,
        [Emit.userLeft room sid uid,
         broadcastDashboardUpdate (discStep1 room uid st) room]).1) = discStep1 room uid st
      from rfl, hlk]
    rfl
  have hout : discRoom sid room st =
      (⟨derase room (discStep1 room uid st).rooms,
        derase room (discStep1 room uid st).room_attention_data⟩,
       [Emit.userLeft room sid uid, Emit.dashboardUpdate room ⟨0, 0, 0, 0⟩ []]) := by
    simp only [discRoom, hsole]
    rw [if_pos hcond, h1, hdu]
  rw [hout]
  refine ⟨?_, ?_, rfl⟩
  · have hnodup : ((discStep1 room uid st).rooms.map Prod.fst).Nodup := by
      rw [hs1rooms, keys_dinsert_of_mem hmem]
      exact hk1
    exact dlookup_derase_self hnodup
  · have hnodup : ((discStep1 room uid st).room_attention_data.map Prod.fst).Nodup := by
      rw [show (discStep1 room uid st).room_attention_data =
        discRadStep room uid st.room_attention_data from rfl, discRadStep_keys]
      exact hk2
    exact dlookup_derase_self hnodup

theorem discRooms_sole (sid uid room : String) (ud : UserData) (hsid : ud.sid = sid) :
    ∀ (snap : List String) (st : ServerState), snap.Nodup → room ∈ snap →
      (st.rooms.map Prod.fst).Nodup → (st.room_attention_data.map Prod.fst).Nodup →
      dlookup room st.rooms = some [(uid, ud)] →
      dlookup room (discRooms sid snap st).1.rooms = none ∧
      dlookup room (discRooms sid snap st).1.room_attention_data = none ∧
      Emit.dashboardUpdate room ⟨0, 0, 0, 0⟩ [] ∈ (discRooms sid snap st).2 := by
  intro snap
  induction snap with
  | nil =>
    intro st _ hmem _ _ _
    simp at hmem
  | cons r0 rs ih =>
    intro st hnd hmem hk1 hk2 hsole
    have hnd' : rs.Nodup := (List.nodup_cons.mp hnd).2
    have hr0 : r0 ∉ rs := (List.nodup_cons.mp hnd).1
    have hred1 : (discRooms sid (r0 :: rs) st).1 =
        (discRooms sid rs (discRoom sid r0 st).1).1 := rfl
    have hred2 : (discRooms sid (r0 :: rs) st).2 =
        (discRoom sid r0 st).2 ++ (discRooms sid rs (discRoom sid r0 st).1).2 := rfl
    rcases List.mem_cons.mp hmem with hre | hrm
    · subst hre
      have hsolec := discRoom_sole sid uid room ud st hsid hk1 hk2 hsole
      have hfr := discRooms_frame sid rs (discRoom sid room st).1 room hr0
      refine ⟨?_, ?_, ?_⟩
      · rw [hred1, hfr.1, hsolec.1]
      · rw [hred1, hfr.2, hsolec.2.1]
      · rw [hred2, hsolec.2.2]
        exact List.mem_append_left _ (by simp)
    · have hne : room ≠ r0 := fun he => hr0 (he ▸ hrm)
      have hfr := discRoom_frame sid r0 room hne st
      have hkeys := discRoom_keys sid r0 st
      have hih := ih (discRoom sid r0 st).1 hnd' hrm
        ((hkeys.1).nodup hk1) ((hkeys.2).nodup hk2) (hfr.1.trans hsole)
      refine ⟨?_, ?_, ?_⟩
      · rw [hred1, hih.1]
      · rw [hred1, hih.2.1]
      · rw [hred2]
        exact List.mem_append_right _ hih.2.2

/-! ### Dashboard aggregation lemmas -/

/-- The attentiveness that both aggregation call sites attribute to a
registered member: its latest reading's `is_attentive`, or unknown when no
reading exists. -/
def memberAttn (st : ServerState) (room_code uid : String) : Option Bool :=
  match dlookup uid ((dlookup room_code st.room_attention_data).getD []) with
  | none => none
  | some r => r.is_attentive

theorem broadcastDashboardStats_total (st : ServerState) (rc : String) :
    (broadcastDashboardStats st rc).total = (participantsInfo st rc).length := rfl

theorem broadcastDashboardStats_attentive (st : ServerState) (rc : String) :
    (broadcastDashboardStats st rc).attentive =
      (participantsInfo st rc).countP (fun p => decide (p.is_attentive = some true)) := rfl

theorem broadcastDashboardStats_inattentive (st : ServerState) (rc : String) :
    (broadcastDashboardStats st rc).inattentive =
      ((participantsInfo st rc).length : ℤ) -
        ((participantsInfo st rc).countP (fun p => decide (p.is_attentive = some true)) : ℤ) :=
  rfl

theorem broadcastDashboardStats_rate (st : ServerState) (rc : String) :
    (broadcastDashboardStats st rc).attention_rate =
      round1 (if (participantsInfo st rc).length = 0 then 0 else
        (((participantsInfo st rc).countP (fun p => decide (p.is_attentive = some true))) : ℚ) /
          ((participantsInfo st rc).length : ℚ) * 100) := rfl

theorem getSessionDashboardStats_total (st : ServerState) (rc : String) :
    (getSessionDashboardStats st rc).total_participants =
      (restParticipantsInfo st rc).length := rfl

theorem getSessionDashboardStats_attentive (st : ServerState) (rc : String) :
    (getSessionDashboardStats st rc).attentive =
      (restParticipantsInfo st rc).countP (fun p => decide (p.is_attentive = some true)) := rfl

theorem getSessionDashboardStats_inattentive (st : ServerState) (rc : String) :
    (getSessionDashboardStats st rc).inattentive =
      (restParticipantsInfo st rc).countP (fun p => decide (p.is_attentive = some false)) := rfl

theorem getSessionDashboardStats_rate (st : ServerState) (rc : String) :
    (getSessionDashboardStats st rc).attention_rate =
      round1 (if (restParticipantsInfo st rc).length = 0 then 0 else
        (((restParticipantsInfo st rc).countP
          (fun p => decide (p.is_attentive = some true))) : ℚ) /
          ((restParticipantsInfo st rc).length : ℚ) * 100) := rfl

theorem participantsInfo_length (st : ServerState) (rc : String) :
    (participantsInfo st rc).length = ((dlookup rc st.rooms).getD []).length := by
  simp [participantsInfo]

theorem restParticipantsInfo_length (st : ServerState) (rc : String) :
    (restParticipantsInfo st rc).length = ((dlookup rc st.rooms).getD []).length := by
  simp [restParticipantsInfo]

theorem participantsInfo_countP_true (st : ServerState) (rc : String) :
    (participantsInfo st rc).countP (fun p => decide (p.is_attentive = some true)) =
      ((dlookup rc st.rooms).getD []).countP
        (fun p => decide (memberAttn st rc p.1 = some true)) := by
  rw [participantsInfo, List.countP_map]
  rfl

theorem participantsInfo_countP_false (st : ServerState) (rc : String) :
    (participantsInfo st rc).countP (fun p => decide (p.is_attentive = some false)) =
      ((dlookup rc st.rooms).getD []).countP
        (fun p => decide (memberAttn st rc p.1 = some false)) := by
  rw [participantsInfo, List.countP_map]
  rfl

theorem participantsInfo_countP_none (st : ServerState) (rc : String) :
    (participantsInfo st rc).countP (fun p => decide (p.is_attentive = none)) =
      ((dlookup rc st.rooms).getD []).countP
        (fun p => decide (memberAttn st rc p.1 = none)) := by
  rw [participantsInfo, List.countP_map]
  rfl

theorem restParticipantsInfo_countP_true (st : ServerState) (rc : String) :
    (restParticipantsInfo st rc).countP (fun p => decide (p.is_attentive = some true)) =
      ((dlookup rc st.rooms).getD []).countP
        (fun p => decide (memberAttn st rc p.1 = some true)) := by
  rw [restParticipantsInfo, List.countP_map]
  rfl

theorem restParticipantsInfo_countP_false (st : ServerState) (rc : String) :
    (restParticipantsInfo st rc).countP (fun p => decide (p.is_attentive = some false)) =
      ((dlookup rc st.rooms).getD []).countP
        (fun p => decide (memberAttn st rc p.1 = some false)) := by
  rw [restParticipantsInfo, List.countP_map]
  rfl

theorem countP_option_bool_partition (l : List (String × UserData))
    (f : String × UserData → Option Bool) :
    l.length = l.countP (fun p => decide (f p = some true)) +
      l.countP (fun p => decide (f p = some false)) +
      l.countP (fun p => decide (f p = none)) := by
  induction l with
  | nil => rfl
  | cons x rest ih =>
    rcases hfx : f x with _ | b
    · simp [List.countP_cons, hfx, ih]
      omega
    · cases b
      · simp [List.countP_cons, hfx, ih]
        omega
      · simp [List.countP_cons, hfx, ih]
        omega

theorem join_room_lookup_ne (sid : String) (data : JoinData) (st : ServerState)
    {A : String} (hne : A ≠ data.room.getD "default") :
    dlookup A (join_room sid data st).1.rooms = dlookup A st.rooms := by
  show dlookup A (dinsert (data.room.getD "default")
      (dinsert sid ⟨data.name.getD "Anonymous", sid, data.user_id⟩
        ((dlookup (data.room.getD "default")
          (dsetdefault (data.room.getD "default") [] st.rooms)).getD []))
      (dsetdefault (data.room.getD "default") [] st.rooms)) = dlookup A st.rooms
  rw [dlookup_dinsert_ne hne, dlookup_dsetdefault_ne hne]

theorem join_room_lookup_self (sid : String) (data : JoinData) (st : ServerState) :
    dlookup (data.room.getD "default") (join_room sid data st).1.rooms =
      some (dinsert sid ⟨data.name.getD "Anonymous", sid, data.user_id⟩
        ((dlookup (data.room.getD "default") st.rooms).getD [])) := by
  show dlookup (data.room.getD "default") (dinsert (data.room.getD "default")
      (dinsert sid ⟨data.name.getD "Anonymous", sid, data.user_id⟩
        ((dlookup (data.room.getD "default")
          (dsetdefault (data.room.getD "default") [] st.rooms)).getD []))
      (dsetdefault (data.room.getD "default") [] st.rooms)) = _
  rw [dlookup_dinsert_self, dlookup_dsetdefault_self, Option.getD_some]

theorem join_room_trace (sid : String) (data : JoinData) (st : ServerState) :
    (join_room sid data st).2 =
      [Emit.existingUsers sid (((dlookup (data.room.getD "default") st.rooms).getD []).map
         fun p => (p.1, p.2.name)),
       Emit.userJoined (data.room.getD "default") sid sid (data.name.getD "Anonymous"),
       broadcastDashboardUpdate (join_room sid data st).1 (data.room.getD "default")] := by
  show [Emit.existingUsers sid (((dlookup (data.room.getD "default")
      (dsetdefault (data.room.getD "default") [] st.rooms)).getD []).map
      fun p => (p.1, p.2.name)),
    Emit.userJoined (data.room.getD "default") sid sid (data.name.getD "Anonymous"),
    broadcastDashboardUpdate (join_room sid data st).1 (data.room.getD "default")] = _
  rw [dlookup_dsetdefault_self, Option.getD_some]

/-! ### Claim theorems -/

/-- State used for claim C1: room "R" is tracked in the ledger and has the
sole member "c1"; connection "c2" is not a member of "R". -/
def stC1 : ServerState :=
  ⟨[("R", [("c1", ⟨"Alice", "c1", none⟩)])], [("R", [])]⟩

/-- Payload of the `attention_update` sent by the non-member "c2". -/
def dataC1 : AttnData := ⟨some "R", some "Bob", some true, none, none, none⟩

/-- Claim C1 as stated is false on the code: an `attention_update` from
connection "c2", which is not a member of the targeted room "R", changes
the Attention Ledger — the handler checks only that the room is tracked,
never that the sender is a member. -/
theorem c1_counterexample :
    dlookup "c2" ((dlookup "R" stC1.rooms).getD []) = none ∧
    (attention_update "c2" dataC1 0 stC1).1.room_attention_data ≠
      stC1.room_attention_data := by
  decide

/-- Claim C1 amended: an `attention_update` whose room is tracked in the
ledger is accepted even when the sender is not a member of that room; the
ledger entry for the room gains a reading keyed by the sender's
connection id, so the ledger is not unchanged. -/
theorem c1_nonmember_update_writes_ledger (sid : String) (data : AttnData) (now : Nat)
    (st : ServerState) (rc : String) (m : List (String × Reading))
    (hroom : data.room = some rc) (hne : rc ≠ "")
    (htracked : dlookup rc st.room_attention_data = some m)
    (hnotmem : dlookup sid ((dlookup rc st.rooms).getD []) = none)
    (hnoread : dlookup sid m = none) :
    dlookup rc (attention_update sid data now st).1.room_attention_data =
      some (dinsert sid (attnReading data now) m) ∧
    (attention_update sid data now st).1.room_attention_data ≠
      st.room_attention_data := by
  have hst : (attention_update sid data now st).1 =
      ⟨st.rooms, dinsert rc (dinsert sid (attnReading data now) m)
        st.room_attention_data⟩ := by
    simp only [attention_update, hroom, if_neg hne, htracked]
  rw [hst]
  constructor
  · exact dlookup_dinsert_self _ _ _
  · show dinsert rc (dinsert sid (attnReading data now) m) st.room_attention_data ≠
      st.room_attention_data
    intro hcontra
    have h1 := dlookup_dinsert_self rc (dinsert sid (attnReading data now) m)
      st.room_attention_data
    rw [hcontra, htracked] at h1
    have h2 : m = dinsert sid (attnReading data now) m := Option.some_injective _ h1
    have h3 := dlookup_dinsert_self sid (attnReading data now) m
    rw [← h2, hnoread] at h3
    exact Option.noConfusion h3

/-- Witness for the amended claim C1 at a concrete non-member update. -/
theorem c1_witness :
    (dlookup "c2" ((dlookup "R" stC1.rooms).getD []) = none ∧
      dlookup "R" stC1.room_attention_data = some []) ∧
    dlookup "R" (attention_update "c2" dataC1 0 stC1).1.room_attention_data =
      some (dinsert "c2" (attnReading dataC1 0) []) ∧
    (attention_update "c2" dataC1 0 stC1).1.room_attention_data ≠
      stC1.room_attention_data :=
  ⟨⟨by decide, by decide⟩,
   c1_nonmember_update_writes_ledger "c2" dataC1 0 stC1 "R" [] rfl (by decide)
     (by decide) (by decide) (by decide)⟩

/-- Reachable state used for claim C2: c1 joins room "A" and then room "B". -/
def stC2 : ServerState :=
  run [Ev.join "c1" ⟨some "A", some "Ana", none⟩, Ev.join "c1" ⟨some "B", some "Ana", none⟩]

/-- Claim C2 as stated is false on the code: after the reachable event
sequence join(c1, "A") then join(c1, "B"), connection "c1" is registered
as a member of both rooms at once — `join_room` never removes a
connection from its previous room. -/
theorem c2_counterexample :
    ("A" : String) ≠ "B" ∧
    (dlookup "c1" ((dlookup "A" stC2.rooms).getD [])).isSome = true ∧
    (dlookup "c1" ((dlookup "B" stC2.rooms).getD [])).isSome = true := by
  decide

/-- Claim C2 amended: a connection that is a member of room A and
processes a `join_room` for a different room ends up registered in both
rooms simultaneously. -/
theorem c2_join_second_room_keeps_first (sid : String) (data : JoinData)
    (st : ServerState) (A : String)
    (hA : (dlookup sid ((dlookup A st.rooms).getD [])).isSome = true)
    (hne : A ≠ data.room.getD "default") :
    (dlookup sid ((dlookup A (join_room sid data st).1.rooms).getD [])).isSome = true ∧
    (dlookup sid ((dlookup (data.room.getD "default")
      (join_room sid data st).1.rooms).getD [])).isSome = true := by
  constructor
  · rw [join_room_lookup_ne sid data st hne]
    exact hA
  · rw [join_room_lookup_self, Option.getD_some, dlookup_dinsert_self]
    rfl

/-- State with c1 in room "A", used as the witness input for claim C2. -/
def stC2w : ServerState := run [Ev.join "c1" ⟨some "A", some "Ana", none⟩]

/-- Join payload towards room "B" used by the witness for claim C2. -/
def dataC2w : JoinData := ⟨some "B", some "Ana", none⟩

/-- Witness for the amended claim C2 at a concrete double join. -/
theorem c2_witness :
    ((dlookup "c1" ((dlookup "A" stC2w.rooms).getD [])).isSome = true ∧
      ("A" : String) ≠ "B") ∧
    (dlookup "c1" ((dlookup "A"
      (join_room "c1" dataC2w stC2w).1.rooms).getD [])).isSome = true ∧
    (dlookup "c1" ((dlookup (dataC2w.room.getD "default")
      (join_room "c1" dataC2w stC2w).1.rooms).getD [])).isSome = true :=
  ⟨⟨by decide, by decide⟩,
   c2_join_second_room_keeps_first "c1" dataC2w stC2w "A" (by decide) (by decide)⟩

/-- Claim C3: after fully processing any sequence of join_room,
attention_update and disconnect events from the initial empty state,
every room present in the registry has a non-empty participant list. -/
theorem c3_no_empty_rooms (evs : List Ev) :
    ∀ p ∈ (run evs).rooms, p.2 ≠ [] := by
  intro p hp
  obtain ⟨a, b⟩ := p
  exact (run_wf_noempty evs).2 a b (mem_dlookup (run_wf_noempty evs).1.1 hp)

/-- Event sequence used by the witness for claim C3. -/
def evsC3 : List Ev := [Ev.join "c1" ⟨some "R", some "Alice", none⟩]

/-- Witness for claim C3 at a concrete reachable state. -/
theorem c3_witness :
    ("R", [("c1", (⟨"Alice", "c1", none⟩ : UserData))]) ∈ (run evsC3).rooms ∧
    [("c1", (⟨"Alice", "c1", none⟩ : UserData))] ≠ [] :=
  ⟨by decide, c3_no_empty_rooms evsC3 ("R", [("c1", ⟨"Alice", "c1", none⟩)]) (by decide)⟩

/-- Claim C4: at both aggregate call sites, total equals the room's
member count, attentive counts exactly the members whose reading's
is_attentive is `true`, attentive is at most total, the attention rate is
`round(attentive / total * 100, 1)` when total is positive, and the rate
is 0 when total is 0 (no division-by-zero fault). -/
theorem c4_dashboard_stats_invariant (st : ServerState) (rc : String) :
    (broadcastDashboardStats st rc).total = ((dlookup rc st.rooms).getD []).length ∧
    (broadcastDashboardStats st rc).attentive =
      ((dlookup rc st.rooms).getD []).countP
        (fun p => decide (memberAttn st rc p.1 = some true)) ∧
    (broadcastDashboardStats st rc).attentive ≤ (broadcastDashboardStats st rc).total ∧
    (0 < (broadcastDashboardStats st rc).total →
      (broadcastDashboardStats st rc).attention_rate =
        round1 (((broadcastDashboardStats st rc).attentive : ℚ) /
          ((broadcastDashboardStats st rc).total : ℚ) * 100)) ∧
    ((broadcastDashboardStats st rc).total = 0 →
      (broadcastDashboardStats st rc).attention_rate = 0) ∧
    (getSessionDashboardStats st rc).total_participants =
      ((dlookup rc st.rooms).getD []).length ∧
    (getSessionDashboardStats st rc).attentive =
      ((dlookup rc st.rooms).getD []).countP
        (fun p => decide (memberAttn st rc p.1 = some true)) ∧
    (getSessionDashboardStats st rc).attentive ≤
      (getSessionDashboardStats st rc).total_participants ∧
    (0 < (getSessionDashboardStats st rc).total_participants →
      (getSessionDashboardStats st rc).attention_rate =
        round1 (((getSessionDashboardStats st rc).attentive : ℚ) /
          ((getSessionDashboardStats st rc).total_participants : ℚ) * 100)) ∧
    ((getSessionDashboardStats st rc).total_participants = 0 →
      (getSessionDashboardStats st rc).attention_rate = 0) := by
  refine ⟨?_, ?_, ?_, ?_, ?_, ?_, ?_, ?_, ?_, ?_⟩
  · rw [broadcastDashboardStats_total, participantsInfo_length]
  · rw [broadcastDashboardStats_attentive, participantsInfo_countP_true]
  · rw [broadcastDashboardStats_total, broadcastDashboardStats_attentive]
    exact List.countP_le_length _
  · intro h
    have hne : ¬ (participantsInfo st rc).length = 0 := by
      rw [broadcastDashboardStats_total] at h
      omega
    rw [broadcastDashboardStats_rate, if_neg hne, broadcastDashboardStats_attentive,
      broadcastDashboardStats_total]
  · intro h
    have h0 : (participantsInfo st rc).length = 0 := by
      rw [broadcastDashboardStats_total] at h
      exact h
    rw [broadcastDashboardStats_rate, if_pos h0, round1_zero]
  · rw [getSessionDashboardStats_total, restParticipantsInfo_length]
  · rw [getSessionDashboardStats_attentive, restParticipantsInfo_countP_true]
  · rw [getSessionDashboardStats_total, getSessionDashboardStats_attentive]
    exact List.countP_le_length _
  · intro h
    have hne : ¬ (restParticipantsInfo st rc).length = 0 := by
      rw [getSessionDashboardStats_total] at h
      omega
    rw [getSessionDashboardStats_rate, if_neg hne, getSessionDashboardStats_attentive,
      getSessionDashboardStats_total]
  · intro h
    have h0 : (restParticipantsInfo st rc).length = 0 := by
      rw [getSessionDashboardStats_total] at h
      exact h
    rw [getSessionDashboardStats_rate, if_pos h0, round1_zero]

/-- State used by the witness for claim C4: two members, one attentive. -/
def stC4 : ServerState :=
  ⟨[("R", [("c1", ⟨"Alice", "c1", none⟩), ("c2", ⟨"Bob", "c2", none⟩)])],
   [("R", [("c1", ⟨some true, 1, 1, 0, 0⟩)])]⟩

/-- Witness for claim C4 at a concrete two-member room. -/
theorem c4_witness :
    0 < (broadcastDashboardStats stC4 "R").total ∧
    (broadcastDashboardStats stC4 "R").attention_rate =
      round1 (((broadcastDashboardStats stC4 "R").attentive : ℚ) /
        ((broadcastDashboardStats stC4 "R").total : ℚ) * 100) ∧
    (getSessionDashboardStats stC4 "R").attention_rate =
      round1 (((getSessionDashboardStats stC4 "R").attentive : ℚ) /
        ((getSessionDashboardStats stC4 "R").total_participants : ℚ) * 100) :=
  ⟨by decide, (c4_dashboard_stats_invariant stC4 "R").2.2.2.1 (by decide),
   (c4_dashboard_stats_invariant stC4 "R").2.2.2.2.2.2.2.2.1 (by decide)⟩

/-- State used for claim C5: one member of "R" with no attention reading. -/
def stC5 : ServerState := ⟨[("R", [("c1", ⟨"Alice", "c1", none⟩)])], [("R", [])]⟩

/-- Claim C5 as stated is false on the code: for a room with one member
and no reading, the broadcast path reports inattentive = 1 (it computes
total - attentive) while the REST path reports inattentive = 0 (it counts
only readings that are exactly `False`). -/
theorem c5_counterexample :
    (broadcastDashboardStats stC5 "R").inattentive = 1 ∧
    (getSessionDashboardStats stC5 "R").inattentive = 0 ∧ (1 : ℤ) ≠ 0 := by
  refine ⟨by decide, by decide, by decide⟩

/-- Claim C5 amended: the two aggregate call sites do not apply the same
inattentive-counting policy; for every room state, the broadcast path's
inattentive count exceeds the REST path's count by exactly the number of
members with no boolean reading (so they agree only when every member has
one). -/
theorem c5_inattentive_policies_differ (st : ServerState) (rc : String) :
    (broadcastDashboardStats st rc).inattentive =
      ((getSessionDashboardStats st rc).inattentive : ℤ) +
      (((dlookup rc st.rooms).getD []).countP
        (fun p => decide (memberAttn st rc p.1 = none)) : ℤ) := by
  rw [broadcastDashboardStats_inattentive, getSessionDashboardStats_inattentive,
    participantsInfo_length, participantsInfo_countP_true, restParticipantsInfo_countP_false]
  have hpart := countP_option_bool_partition ((dlookup rc st.rooms).getD [])
    (fun p => memberAttn st rc p.1)
  simp only [] at hpart
  omega

/-- Claim C6: the `existing-users` list unicast to a joiner is exactly the
participants registered in the room before the join (id and name pairs,
in registry order), and when the joiner was not already registered it does
not contain the joiner's new entry. -/
theorem c6_existing_users_before_join (sid : String) (data : JoinData) (st : ServerState) :
    (join_room sid data st).2 =
      [Emit.existingUsers sid (((dlookup (data.room.getD "default") st.rooms).getD []).map
         fun p => (p.1, p.2.name)),
       Emit.userJoined (data.room.getD "default") sid sid (data.name.getD "Anonymous"),
       broadcastDashboardUpdate (join_room sid data st).1 (data.room.getD "default")] ∧
    (dlookup sid ((dlookup (data.room.getD "default") st.rooms).getD []) = none →
      ∀ q ∈ ((dlookup (data.room.getD "default") st.rooms).getD []).map
        (fun p => (p.1, p.2.name)), q.1 ≠ sid) := by
  refine ⟨join_room_trace sid data st, ?_⟩
  intro h q hq
  rcases List.mem_map.mp hq with ⟨p, hp, hpq⟩
  rw [← hpq]
  intro he
  have he' : p.1 = sid := he
  rw [dlookup_eq_none_iff] at h
  exact h (he' ▸ List.mem_map.mpr ⟨p, hp, rfl⟩)

/-- Join payload of the first joiner A in the C6 witness scenario. -/
def dataJA : JoinData := ⟨some "X1Y2", some "Alice", none⟩

/-- Join payload of the second joiner B in the C6 witness scenario. -/
def dataJB : JoinData := ⟨some "X1Y2", some "Bruno", none⟩

/-- State after A joined the fresh room "X1Y2". -/
def stJA : ServerState := (join_room "A" dataJA ⟨[], []⟩).1

/-- Witness for claim C6: A's existing-users list is empty, B's list is
exactly A's entry, and B's own entry is absent from it. -/
theorem c6_witness :
    (((dlookup "X1Y2" (⟨[], []⟩ : ServerState).rooms).getD []).map
      (fun p => (p.1, p.2.name))) = [] ∧
    (((dlookup "X1Y2" stJA.rooms).getD []).map (fun p => (p.1, p.2.name)))
      = [("A", "Alice")] ∧
    (∀ q ∈ ((dlookup "X1Y2" stJA.rooms).getD []).map (fun p => (p.1, p.2.name)),
      q.1 ≠ "B") :=
  ⟨by decide, by decide,
   (c6_existing_users_before_join "B" dataJB stJA).2 (by decide)⟩

/-- Claim C7: disconnect is idempotent — running disconnect for the same
connection a second time leaves the state exactly as after the first run
and emits nothing (and, being a total function, cannot error). -/
theorem c7_disconnect_idempotent (sid : String) (st : ServerState) (hwf : WF st) :
    disconnect sid ((disconnect sid st).1) = ((disconnect sid st).1, []) :=
  disconnect_id sid _ (disconnect_spec sid st hwf).2

/-- State used by the witness for claim C7. -/
def stC7 : ServerState :=
  ⟨[("R", [("c1", ⟨"Alice", "c1", none⟩), ("c2", ⟨"Bob", "c2", none⟩)])],
   [("R", [("c1", ⟨some true, 1, 1, 0, 0⟩)])]⟩

/-- Witness for claim C7 at a concrete two-member state. -/
theorem c7_witness :
    WF stC7 ∧
    disconnect "c1" ((disconnect "c1" stC7).1) = ((disconnect "c1" stC7).1, []) :=
  ⟨by decide, c7_disconnect_idempotent "c1" stC7 (by decide)⟩

/-- State used for claim C8: "c1" is the sole member of room "R1" and has
a reading in the ledger. -/
def stC8 : ServerState :=
  ⟨[("R1", [("c1", ⟨"Alice", "c1", none⟩)])],
   [("R1", [("c1", ⟨some true, 1, 1, 0, 0⟩)])]⟩

/-- Claim C8 as stated is false in its no-broadcast part: disconnecting
the sole member of "R1" does emit a dashboard-update targeting "R1" —
the broadcast call happens before the empty-room cleanup. -/
theorem c8_counterexample :
    dlookup "R1" stC8.rooms = some [("c1", ⟨"Alice", "c1", none⟩)] ∧
    Emit.dashboardUpdate "R1" ⟨0, 0, 0, 0⟩ [] ∈ (disconnect "c1" stC8).2 := by
  constructor
  · decide
  · norm_num [stC8, disconnect, discRooms, discRoom, discUsers, discStep1, discRadStep,
      dlookup, dinsert, derase, broadcastDashboardUpdate, broadcastDashboardStats,
      participantsInfo, round1, roundHalfEven]

/-- Claim C8 amended: after disconnecting the sole member of a room, the
registry no longer contains the room, the ledger holds no readings for
it, a subsequent attention_update naming the room is a no-op — but a
dashboard-update emit targeting the (now empty) room with zeroed stats is
still issued during the disconnect. -/
theorem c8_sole_member_disconnect (sid uid room : String) (ud : UserData)
    (st : ServerState) (hwf : WF st) (hsid : ud.sid = sid)
    (hsole : dlookup room st.rooms = some [(uid, ud)]) :
    dlookup room (disconnect sid st).1.rooms = none ∧
    dlookup room (disconnect sid st).1.room_attention_data = none ∧
    Emit.dashboardUpdate room ⟨0, 0, 0, 0⟩ [] ∈ (disconnect sid st).2 ∧
    (∀ (sender : String) (data : AttnData) (now : Nat), data.room = some room →
      attention_update sender data now (disconnect sid st).1 =
        ((disconnect sid st).1, [])) := by
  have hmem : room ∈ st.rooms.map Prod.fst := dlookup_isSome_iff.mp (by rw [hsole]; rfl)
  have h := discRooms_sole sid uid room ud hsid (st.rooms.map Prod.fst) st hwf.1 hmem
    hwf.1 hwf.2.1 hsole
  refine ⟨h.1, h.2.1, h.2.2, ?_⟩
  intro sender data now hroom
  exact attention_update_drop sender data now _ (Or.inr ⟨room, hroom, Or.inr h.2.1⟩)

/-- Witness for the amended claim C8 at a concrete sole-member state. -/
theorem c8_witness :
    (WF stC8 ∧ dlookup "R1" stC8.rooms = some [("c1", ⟨"Alice", "c1", none⟩)]) ∧
    dlookup "R1" (disconnect "c1" stC8).1.rooms = none ∧
    dlookup "R1" (disconnect "c1" stC8).1.room_attention_data = none ∧
    Emit.dashboardUpdate "R1" ⟨0, 0, 0, 0⟩ [] ∈ (disconnect "c1" stC8).2 ∧
    (∀ (sender : String) (data : AttnData) (now : Nat), data.room = some "R1" →
      attention_update sender data now (disconnect "c1" stC8).1 =
        ((disconnect "c1" stC8).1, [])) :=
  ⟨⟨by decide, by decide⟩,
   c8_sole_member_disconnect "c1" "c1" "R1" ⟨"Alice", "c1", none⟩ stC8
     (by decide) (by decide) (by decide)⟩

/-- Claim C9: an attention_update whose room field is missing or whose
room is not tracked in the ledger leaves the whole state unchanged and
emits nothing. -/
theorem c9_untracked_attention_dropped (sid : String) (data : AttnData) (now : Nat)
    (st : ServerState)
    (h : data.room = none ∨ ∃ rc, data.room = some rc ∧
      dlookup rc st.room_attention_data = none) :
    attention_update sid data now st = (st, []) := by
  apply attention_update_drop
  rcases h with h | ⟨rc, h1, h2⟩
  · exact Or.inl h
  · exact Or.inr ⟨rc, h1, Or.inr h2⟩

/-- State used by the witness for claim C9: "R" exists in the registry
but is absent from the ledger's tracked set. -/
def stC9 : ServerState := ⟨[("R", [("c1", ⟨"Alice", "c1", none⟩)])], []⟩

/-- Payload used by the witness for claim C9. -/
def dataC9 : AttnData := ⟨some "R", some "Bob", some true, none, none, none⟩

/-- Witness for claim C9 at a concrete untracked room. -/
theorem c9_witness :
    dlookup "R" stC9.room_attention_data = none ∧
    attention_update "c1" dataC9 5 stC9 = (stC9, []) :=
  ⟨by decide,
   c9_untracked_attention_dropped "c1" dataC9 5 stC9 (Or.inr ⟨"R", rfl, by decide⟩)⟩

/-- Claim C10: a second join_room from a connection already registered in
the same room sends it an existing-users list that includes its own
previous entry, and the room's member count is unchanged because the
registry entry is overwritten in place. -/
theorem c10_rejoin_sees_self (sid : String) (data : JoinData) (st : ServerState)
    (ud : UserData)
    (hmem : dlookup sid ((dlookup (data.room.getD "default") st.rooms).getD [])
      = some ud) :
    (join_room sid data st).2.head? =
      some (Emit.existingUsers sid
        (((dlookup (data.room.getD "default") st.rooms).getD []).map
          fun p => (p.1, p.2.name))) ∧
    (sid, ud.name) ∈ ((dlookup (data.room.getD "default") st.rooms).getD []).map
      (fun p => (p.1, p.2.name)) ∧
    ((dlookup (data.room.getD "default") (join_room sid data st).1.rooms).getD []).length
      = ((dlookup (data.room.getD "default") st.rooms).getD []).length := by
  refine ⟨?_, ?_, ?_⟩
  · rw [join_room_trace]
    rfl
  · exact List.mem_map.mpr ⟨(sid, ud), dlookup_mem hmem, rfl⟩
  · rw [join_room_lookup_self, Option.getD_some]
    exact length_dinsert_of_mem (dlookup_isSome_iff.mp (by rw [hmem]; rfl)) _

/-- State used by the witness for claim C10: "c1" already in room "R". -/
def stC10 : ServerState := ⟨[("R", [("c1", ⟨"Alice", "c1", none⟩)])], [("R", [])]⟩

/-- Rejoin payload used by the witness for claim C10. -/
def dataC10 : JoinData := ⟨some "R", some "Alicia", none⟩

/-- Witness for claim C10 at a concrete re-join. -/
theorem c10_witness :
    dlookup "c1" ((dlookup "R" stC10.rooms).getD []) =
      some (⟨"Alice", "c1", none⟩ : UserData) ∧
    (("c1", "Alice") ∈ ((dlookup "R" stC10.rooms).getD []).map
      (fun p => (p.1, p.2.name)) ∧
     ((dlookup "R" (join_room "c1" dataC10 stC10).1.rooms).getD []).length =
       ((dlookup "R" stC10.rooms).getD []).length) :=
  ⟨by decide,
   (c10_rejoin_sees_self "c1" dataC10 stC10 ⟨"Alice", "c1", none⟩ (by decide)).2⟩
